import Mathlib

/-!
Shallow embedding of `src/app.py`: a Streamlit page that collects a topic,
a breadth and a depth, feeds them on standard input to a child process
(`npx tsx src/run.ts`), and on completion shows the captured streams and the
`output.md` artifact, if present, decoded as UTF-8.

The submit handler is modelled as a pure function from the form inputs, the
child-process outcome and the state of the filesystem at the artifact path to
the trace of UI calls the script performs, plus an optional uncaught
exception.  UTF-8 encoding and decoding are implemented over byte lists,
mirroring Python's strict `utf-8` codec.
-/

namespace App

/-- A value returned by `st.slider label lo hi default`: the widget only
produces values inside `[lo, hi]`, and `default` when untouched. -/
def sliderVal (lo hi default : Nat) (choice : Option Nat) : Nat :=
  match choice with
  | none => default
  | some c => max lo (min hi c)

/-- `cli_input = f"{topic}\n{breadth}\n{depth}\n"` (src/app.py line 28). -/
def cli_input (topic : String) (breadth depth : Nat) : String :=
  s!"{topic}\n{breadth}\n{depth}\n"

/-- The fixed command line passed to `subprocess.run` (src/app.py line 31). -/
def cliCommand : List String :=
  ["cmd", "/c", "npx", "tsx", "--env-file=.env.local", "src/run.ts"]

/-- The `timeout=600` argument of `subprocess.run` (src/app.py line 37). -/
def timeoutSeconds : Nat := 600

/-- Outcome of the blocking `subprocess.run` call: either
`subprocess.TimeoutExpired` was raised, or the process completed with captured
stdout, stderr and a return code. -/
inductive RunOutcome where
  | timedOut
  | completed (stdout stderr : String) (returncode : Int)
deriving DecidableEq

/-- State of the filesystem at the fixed `output.md` path. -/
inductive FileState where
  | absent
  | present (bytes : List Nat)
deriving DecidableEq

/-- The file found at `output.md` after a completed run: the child either
left the path untouched (`none`) or wrote `bytes` there (`some bytes`). -/
def fsAfterRun (fsBefore : FileState) (childWrite : Option (List Nat)) :
    FileState :=
  match childWrite with
  | none => fsBefore
  | some b => FileState.present b

/-! ### UTF-8 codec (Python's strict `utf-8` codec over byte lists) -/

/-- UTF-8 encoding of one Unicode code point `v`, written with `/`, `%` and
`+` (the arithmetic the shift-and-mask byte construction computes). -/
def encodeChar (v : Nat) : List Nat :=
  if v < 0x80 then [v]
  else if v < 0x800 then [0xC0 + v / 64, 0x80 + v % 64]
  else if v < 0x10000 then
    [0xE0 + v / 4096, 0x80 + v / 64 % 64, 0x80 + v % 64]
  else
    [0xF0 + v / 262144, 0x80 + v / 4096 % 64, 0x80 + v / 64 % 64,
      0x80 + v % 64]

/-- UTF-8 encoding of a list of characters. -/
def encodeChars : List Char → List Nat
  | [] => []
  | c :: cs => encodeChar c.toNat ++ encodeChars cs

/-- UTF-8 encoding of a string. -/
def utf8Encode (s : String) : List Nat :=
  encodeChars s.data

/-- Strict UTF-8 decoding of one code point from the front of a byte list:
rejects stray continuation bytes, overlong forms, surrogates and code points
above `0x10FFFF`, exactly as Python's `utf-8` codec does. -/
def decodeChar : List Nat → Option (Nat × List Nat)
  | [] => none
  | b0 :: t0 =>
    if b0 < 0x80 then some (b0, t0)
    else if b0 < 0xC2 then none
    else if b0 < 0xE0 then
      match t0 with
      | b1 :: t1 =>
        if 0x80 ≤ b1 ∧ b1 < 0xC0 then
          some ((b0 - 0xC0) * 64 + (b1 - 0x80), t1)
        else none
      | [] => none
    else if b0 < 0xF0 then
      match t0 with
      | b1 :: b2 :: t2 =>
        if (0x80 ≤ b1 ∧ b1 < 0xC0) ∧ (0x80 ≤ b2 ∧ b2 < 0xC0) then
          let v := (b0 - 0xE0) * 4096 + (b1 - 0x80) * 64 + (b2 - 0x80)
          if v < 0x800 ∨ (0xD800 ≤ v ∧ v < 0xE000) then none
          else some (v, t2)
        else none
      | _ => none
    else if b0 < 0xF5 then
      match t0 with
      | b1 :: b2 :: b3 :: t3 =>
        if (0x80 ≤ b1 ∧ b1 < 0xC0) ∧ (0x80 ≤ b2 ∧ b2 < 0xC0) ∧
            (0x80 ≤ b3 ∧ b3 < 0xC0) then
          let v := (b0 - 0xF0) * 262144 + (b1 - 0x80) * 4096 +
            (b2 - 0x80) * 64 + (b3 - 0x80)
          if v < 0x10000 ∨ 0x110000 ≤ v then none else some (v, t3)
        else none
      | _ => none
    else none

/-- Decode a whole byte list into code points; `fuel` bounds the number of
decoding steps (each step consumes at least one byte, so `l.length` steps
always suffice). -/
def decodeValsFuel : Nat → List Nat → Option (List Nat)
  | _, [] => some []
  | 0, _ :: _ => none
  | fuel + 1, b :: t =>
    match decodeChar (b :: t) with
    | none => none
    | some (v, rest) => (decodeValsFuel fuel rest).map (fun vs => v :: vs)

/-- Strict UTF-8 decoding of a byte list into a string; `none` models Python
raising `UnicodeDecodeError`. -/
def utf8Decode (l : List Nat) : Option String :=
  (decodeValsFuel l.length l).map (fun vs => String.mk (vs.map Char.ofNat))

/-! ### The page trace -/

/-- One Streamlit call made by the submit handler, in order, plus the
`subprocess.run` spawn itself. -/
inductive Event where
  | info (msg : String)
  | spawn (cmd : List String) (stdin : String) (timeout : Nat)
  | subheader (title : String)
  | code (text : String)
  | success (msg : String)
  | markdownText (text : String)
  | errorMsg (msg : String)
  | download (label : String) (data : String) (fileName : String)
      (mime : String)
deriving DecidableEq

/-- The run of the submit handler: the UI calls it made, in order, and the
exception it died with if one escaped uncaught. -/
structure AppRun where
  events : List Event
  crashed : Option String
deriving DecidableEq

def startMsg : String := "⏳ Starting research process... Please wait."
def timeoutMsg : String := "❌ Process timed out. Try smaller breadth/depth."
def cliOutputHdr : String := "🧩 CLI Output"
def successMsg : String := "✅ Report generated successfully!"
def reportHdr : String := "📄 Generated Report"
def downloadLabel : String := "⬇️ Download Report"
def notFoundMsg : String :=
  "⚠️ output.md file not found. Check CLI logs above for issues."

/-- Result of the artifact read at `output.md` (src/app.py lines 48-49 and
61): the `exists()` guard turns absence into the not-found branch; a present
file is read with `read_text(encoding="utf-8")`, which raises on bytes that
are not valid UTF-8. -/
inductive LoadResult where
  | found (content : String)
  | notFound
  | raised (exn : String)
deriving DecidableEq

/-- `loadArtifact`: the existence check plus UTF-8 read of `output.md`. -/
def loadArtifact (fs : FileState) : LoadResult :=
  match fs with
  | FileState.absent => LoadResult.notFound
  | FileState.present bytes =>
    match utf8Decode bytes with
    | some s => LoadResult.found s
    | none => LoadResult.raised "UnicodeDecodeError"

/-- The `else:` branch after a completed `subprocess.run` (src/app.py lines
42-61): show the CLI output section, each captured stream only when
non-empty, then read the artifact path. -/
def afterRun (stdout stderr : String) (fs : FileState) : AppRun :=
  let cliEv := [Event.subheader cliOutputHdr] ++
    (if stdout = "" then [] else [Event.code stdout]) ++
    (if stderr = "" then [] else [Event.code stderr])
  match loadArtifact fs with
  | LoadResult.notFound => ⟨cliEv ++ [Event.errorMsg notFoundMsg], none⟩
  | LoadResult.raised e => ⟨cliEv, some e⟩
  | LoadResult.found content =>
    ⟨cliEv ++ [Event.success successMsg, Event.markdownText "---",
      Event.subheader reportHdr, Event.markdownText content,
      Event.download downloadLabel content "output.md" "text/markdown"],
      none⟩

/-- Everything after `match outcome`: the timeout handler or the success
branch, reading the filesystem as the child left it. -/
def runBody (outcome : RunOutcome) (fsBefore : FileState)
    (childWrite : Option (List Nat)) : AppRun :=
  match outcome with
  | RunOutcome.timedOut => ⟨[Event.errorMsg timeoutMsg], none⟩
  | RunOutcome.completed out err _ =>
    afterRun out err (fsAfterRun fsBefore childWrite)

/-- The whole `if submit:` block of src/app.py: read the widgets, build
`cli_input`, announce the run, spawn the child with `cli_input` on stdin and
a 600 second timeout, then handle the outcome.  `fsBefore` is the state of
`output.md` before the run and `childWrite` what the child wrote there. -/
def runApp (topic : String) (breadthChoice depthChoice : Option Nat)
    (outcome : RunOutcome) (fsBefore : FileState)
    (childWrite : Option (List Nat)) : AppRun :=
  let breadth := sliderVal 1 10 4 breadthChoice
  let depth := sliderVal 1 5 2 depthChoice
  let body := runBody outcome fsBefore childWrite
  ⟨Event.info startMsg ::
    Event.spawn cliCommand (cli_input topic breadth depth) timeoutSeconds ::
    body.events,
    body.crashed⟩

/-! ### UTF-8 round trip -/

/-- Decoding inverts encoding on one valid Unicode code point, whatever
bytes follow. -/
theorem decodeChar_encodeChar (v : Nat) (hv : Nat.isValidChar v)
    (rest : List Nat) : decodeChar (encodeChar v ++ rest) = some (v, rest) := by
  have hv' : v < 0xD800 ∨ (0xDFFF < v ∧ v < 0x110000) := hv
  by_cases h1 : v < 0x80
  · simp only [encodeChar, if_pos h1, List.cons_append, List.nil_append,
      decodeChar, if_pos h1]
  · by_cases h2 : v < 0x800
    · simp only [encodeChar, if_neg h1, if_pos h2, List.cons_append,
        List.nil_append, decodeChar]
      rw [if_neg (by omega), if_neg (by omega), if_pos (by omega),
        if_pos (by omega)]
      have : (0xC0 + v / 64 - 0xC0) * 64 + (0x80 + v % 64 - 0x80) = v := by
        omega
      rw [this]
    · by_cases h3 : v < 0x10000
      · simp only [encodeChar, if_neg h1, if_neg h2, if_pos h3,
          List.cons_append, List.nil_append, decodeChar]
        rw [if_neg (by omega), if_neg (by omega), if_neg (by omega),
          if_pos (by omega), if_pos (by omega), if_neg (by omega)]
        have : (0xE0 + v / 4096 - 0xE0) * 4096 +
            (0x80 + v / 64 % 64 - 0x80) * 64 + (0x80 + v % 64 - 0x80) = v := by
          omega
        rw [this]
      · simp only [encodeChar, if_neg h1, if_neg h2, if_neg h3,
          List.cons_append, List.nil_append, decodeChar]
        rw [if_neg (by omega), if_neg (by omega), if_neg (by omega),
          if_neg (by omega), if_pos (by omega), if_pos (by omega),
          if_neg (by omega)]
        have : (0xF0 + v / 262144 - 0xF0) * 262144 +
            (0x80 + v / 4096 % 64 - 0x80) * 4096 +
            (0x80 + v / 64 % 64 - 0x80) * 64 + (0x80 + v % 64 - 0x80) = v := by
          omega
        rw [this]

/-- The encoding of any code point is at least one byte long. -/
theorem encodeChar_length_pos (v : Nat) : 0 < (encodeChar v).length := by
  unfold encodeChar
  split
  · simp
  · split
    · simp
    · split <;> simp

/-- Decoding inverts encoding on a character list, given enough fuel. -/
theorem decodeValsFuel_encodeChars (cs : List Char) :
    ∀ fuel, (encodeChars cs).length ≤ fuel →
      decodeValsFuel fuel (encodeChars cs) = some (cs.map Char.toNat) := by
  induction cs with
  | nil => intro fuel _; cases fuel <;> rfl
  | cons c cs ih =>
    intro fuel hf
    have hpos := encodeChar_length_pos c.toNat
    have hne : encodeChar c.toNat ≠ [] := by
      intro h; rw [h] at hpos; simp at hpos
    obtain ⟨b, t, hbt⟩ := List.exists_cons_of_ne_nil hne
    have hlen : (encodeChars (c :: cs)).length =
        (encodeChar c.toNat).length + (encodeChars cs).length := by
      simp [encodeChars]
    cases fuel with
    | zero =>
      exfalso
      rw [hlen] at hf
      omega
    | succ f =>
      have hstep : encodeChars (c :: cs) = b :: (t ++ encodeChars cs) := by
        simp [encodeChars, hbt]
      rw [hstep]
      simp only [decodeValsFuel]
      have hback : b :: (t ++ encodeChars cs) =
          encodeChar c.toNat ++ encodeChars cs := by
        rw [hbt]; simp
      rw [hback, decodeChar_encodeChar c.toNat c.valid (encodeChars cs)]
      dsimp only
      rw [ih f (by rw [hlen] at hf; omega)]
      simp

/-- UTF-8 round trip: decoding the encoding of any string gives it back. -/
theorem utf8Decode_utf8Encode (s : String) :
    utf8Decode (utf8Encode s) = some s := by
  obtain ⟨data⟩ := s
  unfold utf8Decode utf8Encode
  rw [decodeValsFuel_encodeChars data _ le_rfl]
  simp [List.map_map, Function.comp_def, Char.ofNat_toNat]

/-! ### The claims -/

/-- C1: for every topic and every breadth in `[1,10]` and depth in `[1,5]`,
the standard-input text serialized for the child process is exactly
`topic ++ "\n" ++ breadth ++ "\n" ++ depth ++ "\n"`, the numbers rendered as
decimal integer text. -/
theorem spec_c1 (topic : String) (breadth depth : Nat)
    (hb1 : 1 ≤ breadth) (hb2 : breadth ≤ 10)
    (hd1 : 1 ≤ depth) (hd2 : depth ≤ 5) :
    cli_input topic breadth depth =
      topic ++ "\n" ++ toString breadth ++ "\n" ++ toString depth ++ "\n" := by
  simp [cli_input, String.empty_append, instToStringString]

/-- C1 witness: topic `"Education in India"`, breadth 4, depth 2 yield the
payload `"Education in India\n4\n2\n"`. -/
theorem spec_c1_witness :
    cli_input "Education in India" 4 2 = "Education in India\n4\n2\n" := by
  rw [spec_c1 "Education in India" 4 2 (by decide) (by decide) (by decide)
    (by decide)]
  rfl

/-- C2 counterexample: the child completes without writing a file, but a
previous run left `"# stale"` at `output.md`; the orchestrator then shows the
stale report and does not report the artifact-missing error, contradicting
the claim. -/
theorem spec_c2_counterexample :
    (Event.errorMsg notFoundMsg ∉
      (runApp "Education in India" (some 4) (some 2)
        (RunOutcome.completed "" "" 0)
        (FileState.present (utf8Encode "# stale")) none).events) ∧
    Event.markdownText "# stale" ∈
      (runApp "Education in India" (some 4) (some 2)
        (RunOutcome.completed "" "" 0)
        (FileState.present (utf8Encode "# stale")) none).events := by decide

/-- C2 amended: when the child process completes and no file is present at
the `output.md` path after the run, the orchestrator reports the
artifact-missing error and displays no report content and no download. -/
theorem spec_c2 (topic : String) (bc dc : Option Nat) (out err : String)
    (rc : Int) (fsBefore : FileState) (childWrite : Option (List Nat))
    (h : fsAfterRun fsBefore childWrite = FileState.absent) :
    Event.errorMsg notFoundMsg ∈
      (runApp topic bc dc (RunOutcome.completed out err rc) fsBefore
        childWrite).events ∧
    (∀ t, Event.markdownText t ∉
      (runApp topic bc dc (RunOutcome.completed out err rc) fsBefore
        childWrite).events) ∧
    (∀ l d f m, Event.download l d f m ∉
      (runApp topic bc dc (RunOutcome.completed out err rc) fsBefore
        childWrite).events) := by
  refine ⟨?_, ?_, ?_⟩ <;>
    simp [runApp, runBody, afterRun, h, loadArtifact] <;> split_ifs <;> simp

/-- C2 witness: a completed run with an empty filesystem reports the
artifact-missing error. -/
theorem spec_c2_witness :
    Event.errorMsg notFoundMsg ∈
      (runApp "t" none none (RunOutcome.completed "" "" 0) FileState.absent
        none).events :=
  (spec_c2 "t" none none "" "" 0 FileState.absent none rfl).1

/-- C3: on `subprocess.TimeoutExpired` the handler's whole trace is the start
message, the spawn with a 600 second budget, and the timeout error — no
stream output, no artifact read, no partial result, independently of the
state of `output.md`. -/
theorem spec_c3 (topic : String) (bc dc : Option Nat) (fsBefore : FileState)
    (childWrite : Option (List Nat)) :
    runApp topic bc dc RunOutcome.timedOut fsBefore childWrite =
      ⟨[Event.info startMsg,
        Event.spawn cliCommand
          (cli_input topic (sliderVal 1 10 4 bc) (sliderVal 1 5 2 dc))
          timeoutSeconds,
        Event.errorMsg timeoutMsg], none⟩ ∧
    timeoutSeconds = 600 ∧
    runApp topic bc dc RunOutcome.timedOut fsBefore childWrite =
      runApp topic bc dc RunOutcome.timedOut FileState.absent none :=
  ⟨rfl, rfl, rfl⟩

/-- C4 counterexample: a present `output.md` whose single byte `0xFF` is not
valid UTF-8 makes the read raise `UnicodeDecodeError` instead of returning
text or the not-found signal, so the claimed dichotomy fails. -/
theorem spec_c4_counterexample :
    loadArtifact (FileState.present [255]) =
      LoadResult.raised "UnicodeDecodeError" ∧
    utf8Decode [255] = none := by decide

/-- C4 amended: `loadArtifact` returns the not-found signal on an absent
file (never an exception), and returns the decoded text whenever the file is
present with valid UTF-8 bytes; a present file with invalid bytes instead
raises. -/
theorem spec_c4 (fs : FileState) :
    (fs = FileState.absent → loadArtifact fs = LoadResult.notFound) ∧
    (∀ bytes content, fs = FileState.present bytes →
      utf8Decode bytes = some content →
      loadArtifact fs = LoadResult.found content) := by
  constructor
  · intro h; rw [h]; rfl
  · intro bytes content h hdec
    rw [h]
    simp [loadArtifact, hdec]

/-- C4 witness: absence gives the not-found signal, and a valid UTF-8 file
containing `"hi"` is read back as `"hi"`. -/
theorem spec_c4_witness :
    loadArtifact FileState.absent = LoadResult.notFound ∧
    loadArtifact (FileState.present (utf8Encode "hi")) =
      LoadResult.found "hi" :=
  ⟨(spec_c4 FileState.absent).1 rfl,
   (spec_c4 (FileState.present (utf8Encode "hi"))).2 (utf8Encode "hi") "hi"
     rfl (by decide)⟩

/-- C5: round trip — if the child writes the UTF-8 encoding of `content` at
`output.md`, `loadArtifact` returns exactly `content`, whatever was at the
path before. -/
theorem spec_c5 (content : String) (fsBefore : FileState) :
    loadArtifact (fsAfterRun fsBefore (some (utf8Encode content))) =
      LoadResult.found content := by
  simp [fsAfterRun, loadArtifact, utf8Decode_utf8Encode]

/-- C6: whatever the widget choices, the breadth serialized into the child's
input stream is in `[1,10]` and the depth in `[1,5]`. -/
theorem spec_c6 (topic : String) (bc dc : Option Nat) (outcome : RunOutcome)
    (fsBefore : FileState) (childWrite : Option (List Nat)) :
    ∃ breadth depth, 1 ≤ breadth ∧ breadth ≤ 10 ∧ 1 ≤ depth ∧ depth ≤ 5 ∧
      Event.spawn cliCommand (cli_input topic breadth depth) timeoutSeconds ∈
        (runApp topic bc dc outcome fsBefore childWrite).events := by
  refine ⟨sliderVal 1 10 4 bc, sliderVal 1 5 2 dc, ?_, ?_, ?_, ?_, ?_⟩
  · cases bc <;> simp only [sliderVal] <;> omega
  · cases bc <;> simp only [sliderVal] <;> omega
  · cases dc <;> simp only [sliderVal] <;> omega
  · cases dc <;> simp only [sliderVal] <;> omega
  · simp [runApp]

/-- C7: whenever the artifact file is present after a completed run and its
bytes decode to `content`, the trace offers a download labelled
`"⬇️ Download Report"` with file name `"output.md"`, mime type
`"text/markdown"` and data exactly `content`. -/
theorem spec_c7 (topic : String) (bc dc : Option Nat) (out err : String)
    (rc : Int) (fsBefore : FileState) (childWrite : Option (List Nat))
    (bytes : List Nat) (content : String)
    (hfs : fsAfterRun fsBefore childWrite = FileState.present bytes)
    (hdec : utf8Decode bytes = some content) :
    Event.download downloadLabel content "output.md" "text/markdown" ∈
      (runApp topic bc dc (RunOutcome.completed out err rc) fsBefore
        childWrite).events := by
  simp [runApp, runBody, afterRun, hfs, loadArtifact, hdec]

/-- C7 witness: an artifact containing `"# Report\n\nDone."` is offered for
download with exactly that content, as `output.md`, as markdown. -/
theorem spec_c7_witness :
    Event.download downloadLabel "# Report\n\nDone." "output.md"
        "text/markdown" ∈
      (runApp "t" none none (RunOutcome.completed "" "" 0) FileState.absent
        (some (utf8Encode "# Report\n\nDone."))).events :=
  spec_c7 "t" none none "" "" 0 FileState.absent
    (some (utf8Encode "# Report\n\nDone."))
    (utf8Encode "# Report\n\nDone.") "# Report\n\nDone." rfl (by decide)

/-- C8: a run whose child leaves the single invalid byte `0xFF` at
`output.md` ends in an uncaught `UnicodeDecodeError`: the trace stops after
the CLI-output blocks, with no user-visible error message, because the error
branch only covers the file-absent case. -/
theorem spec_c8 :
    (runApp "t" none none (RunOutcome.completed "out" "err" 1)
      FileState.absent (some [255])).crashed = some "UnicodeDecodeError" ∧
    utf8Decode [255] = none ∧
    (runApp "t" none none (RunOutcome.completed "out" "err" 1)
      FileState.absent (some [255])).events =
      [Event.info startMsg,
       Event.spawn cliCommand (cli_input "t" 4 2) timeoutSeconds,
       Event.subheader cliOutputHdr, Event.code "out",
       Event.code "err"] := by decide

/-- C9: a topic with an embedded newline is neither rejected nor escaped:
with topic `"India\nPakistan"` the serialized payload carries four
newline-terminated lines, more than the three the protocol frames. -/
theorem spec_c9 :
    cli_input "India\nPakistan" 4 2 = "India\nPakistan\n4\n2\n" ∧
    (cli_input "India\nPakistan" 4 2).data.count '\n' = 4 ∧
    3 < (cli_input "India\nPakistan" 4 2).data.count '\n' ∧
    Event.spawn cliCommand (cli_input "India\nPakistan" 4 2)
        timeoutSeconds ∈
      (runApp "India\nPakistan" (some 4) (some 2)
        (RunOutcome.completed "" "" 0) FileState.absent none).events := by
  decide

/-- C10: in every completed run, a `st.code` block with text `s` appears in
the trace exactly when `s` is the captured stdout and stdout is non-empty,
or `s` is the captured stderr and stderr is non-empty. -/
theorem spec_c10 (topic : String) (bc dc : Option Nat) (out err : String)
    (rc : Int) (fsBefore : FileState) (childWrite : Option (List Nat))
    (s : String) :
    Event.code s ∈
      (runApp topic bc dc (RunOutcome.completed out err rc) fsBefore
        childWrite).events ↔
      ((s = out ∧ out ≠ "") ∨ (s = err ∧ err ≠ "")) := by
  simp only [runApp, runBody, afterRun]
  cases h : loadArtifact (fsAfterRun fsBefore childWrite) <;>
    split_ifs <;> simp_all <;> tauto

end App
